import Mathlib

/-!
Verification of the Strategy-Phoenix static file server (`simple_server.py`).

The program is a thin subclass of Python's `http.server.SimpleHTTPRequestHandler`
(CPython 3.11, `http/server.py`) that adds three CORS headers to every response,
answers `OPTIONS` directly, and timestamps its access log.  The shallow embedding
below models strings as `List Char` (`Str`), bytes as `List Nat` (one entry per
code point; the UTF-8 byte-level encoding of non-ASCII text is abstracted), the
filesystem as an explicit association list, and the handler's side effects
(headers buffer, body bytes, stdout events, filesystem accesses) as fields of an
explicit state record threaded through the translated methods.

Sources embedded:
* `src/simple_server.py` (the repository) — the `CORSHTTPRequestHandler`
  overrides and the `__main__` block;
* CPython 3.11 `http/server.py` — `BaseHTTPRequestHandler.send_response`,
  `send_header`, `send_error`, `handle_one_request` dispatch, and
  `SimpleHTTPRequestHandler.do_GET/do_HEAD/send_head/list_directory/translate_path`;
* CPython 3.11 `posixpath.py` — `normpath`, `join`, `splitext`.

Out of scope of the model (none of it is touched by the claims): HTTP/0.9
requests (which suppress headers), request-line parse errors, socket timeouts,
symbolic links in directory listings, and the byte-level UTF-8/RFC 2822
renderings of dates (`date_time_string` is modelled by an injective but
abstract rendering).
-/

namespace Phoenix

/-- Strings of the model: lists of characters (kernel-reducible, unlike the
byte-position loops of core `String` functions). -/
abbrev Str := List Char

/-- Converts a Lean string literal into the model's string type. -/
def str (s : String) : Str := s.data

/-- The apostrophe character (U+0027), used when embedding Python `%r` output. -/
def quoteCh : Char := Char.ofNat 39

/-- Bytes of a model string: one `Nat` per code point.  This abstracts the
UTF-8 encoding performed by `str.encode` in the source; it is injective and
exact on ASCII, which is all the claims inspect. -/
def bytesOf (s : Str) : List Nat := s.map Char.toNat

/-- The decimal digit character for `n % 10`. -/
def digitCh (n : Nat) : Char :=
  match n % 10 with
  | 0 => '0' | 1 => '1' | 2 => '2' | 3 => '3' | 4 => '4'
  | 5 => '5' | 6 => '6' | 7 => '7' | 8 => '8' | _ => '9'

/-- Fuel-driven decimal digit expansion (most significant digit first).
The fuel argument only bounds the recursion; `natChars` supplies enough. -/
def natDigsF : Nat → Nat → Str
  | 0, _ => []
  | fuel + 1, n => if n = 0 then [] else natDigsF fuel (n / 10) ++ [digitCh n]

/-- Decimal rendering of a natural number, as Python's `str`/`%d` produce it. -/
def natChars (n : Nat) : Str :=
  if n = 0 then ['0'] else natDigsF (n + 1) n

/-- Zero-padded two-digit rendering, as `strftime` field specifiers produce. -/
def pad2 (n : Nat) : Str :=
  if n < 10 then '0' :: natChars n else natChars n

/-- A broken-down local time, the input of `time.strftime`. -/
structure Tm where
  year : Nat
  month : Nat
  day : Nat
  hour : Nat
  minute : Nat
  second : Nat
deriving DecidableEq

/-- Embeds `time.strftime("%Y-%m-%d %H:%M:%S")` (src/simple_server.py line 27).
`%Y` renders the year's decimal digits; `%m %d %H %M %S` are zero-padded to
two digits. -/
def strftimeYmdHMS (t : Tm) : Str :=
  natChars t.year ++ '-' :: pad2 t.month ++ '-' :: pad2 t.day ++
    ' ' :: pad2 t.hour ++ ':' :: pad2 t.minute ++ ':' :: pad2 t.second

/-- Python `s.split(c)` for a one-character separator: always returns at least
one (possibly empty) piece, e.g. `"" ↦ [""]` and `"/" ↦ ["", ""]`. -/
def splitCh (c : Char) (s : Str) : List Str :=
  s.foldr
    (fun ch acc =>
      match acc with
      | [] => [[ch]]
      | cur :: rest => if ch = c then [] :: cur :: rest else (ch :: cur) :: rest)
    [[]]

/-- Python `s.split(c, 1)[0]`: the text before the first occurrence of `c`
(the whole string when `c` is absent). -/
def takeUntilCh (c : Char) : Str → Str
  | [] => []
  | x :: xs => if x = c then [] else x :: takeUntilCh c xs

/-- The text after the first occurrence of `c` (empty when `c` is absent),
matching the query/fragment components `urlsplit` extracts. -/
def afterCh (c : Char) (s : Str) : Str :=
  (s.dropWhile (fun x => x ≠ c)).drop 1

/-- ASCII whitespace recognised by Python's `str.rstrip()` (the Unicode
whitespace extension is irrelevant to the embedded call sites). -/
def isPyWS (c : Char) : Bool :=
  c = ' ' ∨ c = '\t' ∨ c = '\n' ∨ c = '\r' ∨ c = Char.ofNat 11 ∨ c = Char.ofNat 12

/-- Python `s.rstrip()`. -/
def rstrip (s : Str) : Str :=
  (s.reverse.dropWhile isPyWS).reverse

/-- Whether the string ends with the character `c` (Python `s.endswith(c)`). -/
def lastIs (c : Char) (s : Str) : Bool := s.getLast? = some c

/-- Whether the string contains a `'/'` (used for `os.path.dirname(word)`
truthiness: on POSIX `dirname(w)` is nonempty exactly when `w` contains a
slash). -/
def hasSlash (w : Str) : Bool := w.any (fun c => c = '/')

/-- Value of a hexadecimal digit character, if it is one. -/
def unhex (c : Char) : Option Nat :=
  if 48 ≤ c.toNat ∧ c.toNat ≤ 57 then some (c.toNat - 48)
  else if 65 ≤ c.toNat ∧ c.toNat ≤ 70 then some (c.toNat - 55)
  else if 97 ≤ c.toNat ∧ c.toNat ≤ 102 then some (c.toNat - 87)
  else none

/-- Embeds `urllib.parse.unquote`: a `%` followed by two hex digits becomes the
character with that code; an ill-formed escape is kept verbatim.  (The source
decodes percent-escapes to bytes and then UTF-8-decodes them; this model maps
each decoded byte to one character, which agrees on ASCII.) -/
def unquote : Str → Str
  | [] => []
  | '%' :: a :: b :: rest =>
    match unhex a, unhex b with
    | some hi, some lo => Char.ofNat (16 * hi + lo) :: unquote rest
    | _, _ => '%' :: unquote (a :: b :: rest)
  | c :: rest => c :: unquote rest

/-- Join a list of pieces with a separator character (Python `sep.join`). -/
def joinCh (c : Char) : List Str → Str
  | [] => []
  | [x] => x
  | x :: xs => x ++ c :: joinCh c xs

/-- One step of `posixpath.normpath`'s component loop: skip empty and `"."`
components, keep a component unless it is a collapsible `".."`, and otherwise
pop the previous component. -/
def npStep (initSlashes : Nat) (acc : List Str) (comp : Str) : List Str :=
  if comp = [] ∨ comp = str "." then acc
  else if comp ≠ str ".." ∨ (initSlashes = 0 ∧ acc = []) ∨ acc.getLast? = some (str "..") then
    acc ++ [comp]
  else if acc ≠ [] then acc.dropLast
  else acc

/-- Embeds `posixpath.normpath` (CPython 3.11 `posixpath.py`): collapse
duplicate slashes and `"."`, resolve `".."` against earlier components, and
preserve one or two leading slashes (three or more count as one). -/
def normpath (p : Str) : Str :=
  if p = [] then str "."
  else
    let initSlashes : Nat :=
      match p with
      | '/' :: '/' :: '/' :: _ => 1
      | '/' :: '/' :: _ => 2
      | '/' :: _ => 1
      | _ => 0
    let comps := (splitCh '/' p).foldl (npStep initSlashes) []
    let out := List.replicate initSlashes '/' ++ joinCh '/' comps
    if out = [] then str "." else out

/-- Embeds `posixpath.join` for a single extra component. -/
def posixJoin (a b : Str) : Str :=
  if b.head? = some '/' then b
  else if a = [] ∨ lastIs '/' a then a ++ b
  else a ++ '/' :: b

/-- Embeds `SimpleHTTPRequestHandler.translate_path` (CPython 3.11
`http/server.py` lines 829–857): drop the query and fragment, remember whether
a trailing slash was requested, percent-decode, normalise, and then rebuild the
path from `directory` keeping only simple component names — components that
contain a slash or are `"."`/`".."` are ignored. -/
def translatePath (directory : Str) (p : Str) : Str :=
  let p1 := takeUntilCh '?' p
  let p2 := takeUntilCh '#' p1
  let trailingSlash := lastIs '/' (rstrip p2)
  let p3 := unquote p2
  let p4 := normpath p3
  let words := (splitCh '/' p4).filter (fun w => w ≠ [])
  let out := words.foldl
    (fun acc w =>
      if hasSlash w ∨ w = str "." ∨ w = str ".." then acc else posixJoin acc w)
    directory
  if trailingSlash then out ++ ['/'] else out

/-- The words of the request path that `translatePath` actually joins onto the
serving root: the nonempty, slash-free components other than `"."` and `".."`.
Extracted for claim C10. -/
def joinedParts (p : Str) : List Str :=
  let p4 := normpath (unquote (takeUntilCh '#' (takeUntilCh '?' p)))
  ((splitCh '/' p4).filter (fun w => w ≠ [])).filter
    (fun w => ¬(hasSlash w ∨ w = str "." ∨ w = str ".."))

/-- Whether `translate_path` records a requested trailing slash (the
`trailing_slash` flag of the source). -/
def wantsTrailingSlash (p : Str) : Bool :=
  lastIs '/' (rstrip (takeUntilCh '#' (takeUntilCh '?' p)))

/-- The resolved filesystem path, written as the serving root extended by the
clean components of the request path (the characterisation proved equal to
`translatePath` in claim C10). -/
def resolvedOf (directory p : Str) : Str :=
  let out := (joinedParts p).foldl posixJoin directory
  if wantsTrailingSlash p then out ++ ['/'] else out

/-- Extension of a path (including the dot), embedding `posixpath.splitext`:
the suffix from the last dot of the basename, where leading dots of the
basename do not start an extension. -/
def extOf (p : Str) : Str :=
  let base := (p.reverse.takeWhile (fun c => c ≠ '/')).reverse
  let lead := base.takeWhile (fun c => c = '.')
  let rest := base.drop lead.length
  if rest.contains '.' then '.' :: (rest.reverse.takeWhile (fun c => c ≠ '.')).reverse
  else []

/-- Lowercasing of a model string. -/
def lowerStr (s : Str) : Str := s.map Char.toLower

/-- Association-list lookup by key equality on model strings. -/
def lookupStr (k : Str) : List (Str × Str) → Option Str
  | [] => none
  | (k₀, v) :: rest => if k₀ = k then some v else lookupStr k rest

/-- The handler's own `extensions_map` (CPython 3.11 `http/server.py`
lines 656–661). -/
def extensionsMap : List (Str × Str) :=
  [ (str ".gz", str "application/gzip"),
    (str ".Z", str "application/octet-stream"),
    (str ".bz2", str "application/x-bzip2"),
    (str ".xz", str "application/x-xz") ]

/-- A representative slice of the `mimetypes` table consulted by
`guess_type` as a fallback; the full table is environment data and no claim
depends on a particular entry. -/
def mimeTable : List (Str × Str) :=
  [ (str ".html", str "text/html"),
    (str ".htm", str "text/html"),
    (str ".txt", str "text/plain"),
    (str ".css", str "text/css"),
    (str ".js", str "text/javascript"),
    (str ".json", str "application/json"),
    (str ".png", str "image/png"),
    (str ".jpg", str "image/jpeg"),
    (str ".gif", str "image/gif"),
    (str ".svg", str "image/svg+xml") ]

/-- Embeds `SimpleHTTPRequestHandler.guess_type`: try the handler's own map
with the literal then lowercased extension, then the `mimetypes` guess, and
fall back to `application/octet-stream`. -/
def guessType (p : Str) : Str :=
  let ext := extOf p
  match lookupStr ext extensionsMap with
  | some t => t
  | none =>
    match lookupStr (lowerStr ext) extensionsMap with
    | some t => t
    | none =>
      match lookupStr (lowerStr ext) mimeTable with
      | some t => t
      | none => str "application/octet-stream"

/-- Embeds `html.escape(s, quote=False)`: replace `&`, `<`, `>` by their
entities. -/
def htmlEscape (s : Str) : Str :=
  s.flatMap (fun c =>
    if c = '&' then str "&amp;"
    else if c = '<' then str "&lt;"
    else if c = '>' then str "&gt;"
    else [c])

/-- Uppercase hexadecimal digit character for `n % 16`. -/
def hexCh (n : Nat) : Char :=
  match n % 16 with
  | 0 => '0' | 1 => '1' | 2 => '2' | 3 => '3' | 4 => '4' | 5 => '5'
  | 6 => '6' | 7 => '7' | 8 => '8' | 9 => '9' | 10 => 'A' | 11 => 'B'
  | 12 => 'C' | 13 => 'D' | 14 => 'E' | _ => 'F'

/-- Characters `urllib.parse.quote` never escapes, plus its default
`safe='/'`. -/
def quoteSafe (c : Char) : Bool :=
  (65 ≤ c.toNat ∧ c.toNat ≤ 90) ∨ (97 ≤ c.toNat ∧ c.toNat ≤ 122) ∨
    (48 ≤ c.toNat ∧ c.toNat ≤ 57) ∨ c = '_' ∨ c = '.' ∨ c = '-' ∨ c = '~' ∨ c = '/'

/-- Embeds `urllib.parse.quote(s)` on the model's code-point bytes. -/
def urlQuote (s : Str) : Str :=
  s.flatMap (fun c =>
    if quoteSafe c then [c]
    else '%' :: hexCh (c.toNat / 16) :: [hexCh c.toNat])

/-- Path component of `urllib.parse.urlsplit(url)` for the origin-form and
protocol-relative request targets a server sees (absolute-URL request targets
with a scheme are outside the model): strip the fragment and query, and when
the target starts with `//`, skip the authority. -/
def urlsplitPathOf (url : Str) : Str :=
  let u := takeUntilCh '?' (takeUntilCh '#' url)
  match u with
  | '/' :: '/' :: rest => rest.dropWhile (fun c => c ≠ '/')
  | _ => u

/-- Authority component extracted alongside `urlsplitPathOf`. -/
def urlsplitNetlocOf (url : Str) : Str :=
  let u := takeUntilCh '?' (takeUntilCh '#' url)
  match u with
  | '/' :: '/' :: rest => rest.takeWhile (fun c => c ≠ '/')
  | _ => []

/-- The redirect target built by `send_head`'s directory branch:
`urlunsplit` of the original components with `'/'` appended to the path. -/
def redirectUrl (url : Str) : Str :=
  let netloc := urlsplitNetlocOf url
  let pathPart := urlsplitPathOf url ++ ['/']
  let query := afterCh '?' (takeUntilCh '#' url)
  let frag := afterCh '#' url
  (if netloc ≠ [] then '/' :: '/' :: (netloc ++ pathPart) else pathPart) ++
    (if query ≠ [] then '?' :: query else []) ++
    (if frag ≠ [] then '#' :: frag else [])

/-- Contents and modification time of one regular file. -/
structure FileData where
  content : List Nat
  mtime : Nat
deriving DecidableEq

/-- The filesystem visible to the handler: regular files by resolved path, and
directories by resolved path with their entry names. -/
structure FS where
  files : List (Str × FileData)
  dirs : List (Str × List Str)
deriving DecidableEq

/-- Looks up a regular file (models a successful `open(path, 'rb')`). -/
def FS.lookupFile (fs : FS) (p : Str) : Option FileData :=
  (fs.files.find? (fun e => e.1 = p)).map (fun e => e.2)

/-- Directory key of a path: `os.path.isdir` and `os.listdir` accept a
trailing slash on a directory, so `fs.dirs` stores slash-free keys and
queries drop one trailing slash. -/
def dirKey (p : Str) : Str :=
  if lastIs '/' p then p.dropLast else p

/-- Models `os.path.isdir`. -/
def FS.isdir (fs : FS) (p : Str) : Bool :=
  fs.dirs.any (fun e => e.1 = dirKey p)

/-- Models `os.path.isfile`. -/
def FS.isfile (fs : FS) (p : Str) : Bool :=
  (fs.lookupFile p).isSome

/-- Models `os.listdir`, `none` being the `OSError` branch. -/
def FS.listing (fs : FS) (p : Str) : Option (List Str) :=
  (fs.dirs.find? (fun e => e.1 = dirKey p)).map (fun e => e.2)

/-- One parsed HTTP request as the handler sees it after
`handle_one_request` has read the request line and headers.
`ifModifiedSince` is the parsed `If-Modified-Since` value when the header is
present and well-formed (the source ignores ill-formed values, which `none`
also covers); `hasIfNoneMatch` records the presence of `If-None-Match`. -/
structure Request where
  method : Str
  path : Str
  requestline : Str
  ifModifiedSince : Option Nat := none
  hasIfNoneMatch : Bool := false
deriving DecidableEq

/-- Ambient per-process values of the handler. -/
structure Config where
  directory : Str
  serverVersion : Str
  dateStr : Str
  now : Tm
deriving DecidableEq

/-- One observable action on standard output. -/
inductive OutEvent
  | write (s : Str)
  | flush
deriving DecidableEq

/-- The handler's effect state: response status, buffered headers, body bytes
written, stdout events, log messages passed to `log_message`, and the
filesystem paths accessed. -/
structure St where
  status : Option Nat
  headers : List (Str × Str)
  body : List Nat
  events : List OutEvent
  msgs : List Str
  reads : List Str
deriving DecidableEq

/-- The state before a request is handled. -/
def stInit : St := ⟨none, [], [], [], [], []⟩

/-- Numeric status of a completed response (0 when none was sent). -/
def St.statusCode (st : St) : Nat := st.status.getD 0

/-- Records one filesystem access. -/
def stRead (st : St) (p : Str) : St :=
  { st with reads := st.reads ++ [p] }

/-- Embeds the overridden `log_message` (src/simple_server.py lines 25–29):
write one timestamped line to stdout and flush immediately. -/
def logMessage (cfg : Config) (st : St) (msg : Str) : St :=
  { st with
    events := st.events ++
      [OutEvent.write ('[' :: strftimeYmdHMS cfg.now ++ str "] " ++ msg ++ str "\n"),
       OutEvent.flush],
    msgs := st.msgs ++ [msg] }

/-- Embeds `BaseHTTPRequestHandler.log_request`: the access-log message
`'"%s" %s %s' % (requestline, code, '-')`. -/
def logRequest (cfg : Config) (st : St) (rl : Str) (code : Nat) : St :=
  logMessage cfg st ('"' :: rl ++ '"' :: ' ' :: natChars code ++ str " -")

/-- Embeds `send_header`: append one header to the buffer.  (The HTTP/0.9
guard of the source is outside the model, which covers HTTP/1.x requests.) -/
def sendHeader (st : St) (k v : Str) : St :=
  { st with headers := st.headers ++ [(k, v)] }

/-- Embeds `send_response_only` for HTTP/1.x: record the status line. -/
def sendResponseOnly (st : St) (code : Nat) : St :=
  { st with status := some code }

/-- Embeds `send_response`: log the request, record the status line, and add
the `Server` and `Date` headers. -/
def sendResponse (cfg : Config) (st : St) (rl : Str) (code : Nat) : St :=
  sendHeader
    (sendHeader (sendResponseOnly (logRequest cfg st rl code) code)
      (str "Server") cfg.serverVersion)
    (str "Date") cfg.dateStr

/-- The base class's `end_headers`: terminate the header block (the blank line
and buffer flush to the wire leave the model state unchanged). -/
def endHeadersBase (st : St) : St := st

/-- Embeds the overridden `end_headers` (src/simple_server.py lines 15–19):
append the three CORS headers, then finish the block as the base class does.
Every response path of the handler funnels through this method. -/
def endHeaders (st : St) : St :=
  endHeadersBase
    (sendHeader
      (sendHeader
        (sendHeader st (str "Access-Control-Allow-Origin") (str "*"))
        (str "Access-Control-Allow-Methods") (str "GET, POST, OPTIONS, PUT, DELETE"))
      (str "Access-Control-Allow-Headers") (str "Content-Type, Authorization"))

/-- The rows of `http.HTTPStatus` consulted by the embedded paths (phrase and
long description per code). -/
def responsesTable (code : Nat) : Option (Str × Str) :=
  if code = 200 then some (str "OK", str "Request fulfilled, document follows")
  else if code = 301 then some (str "Moved Permanently", str "Object moved permanently -- see URI list")
  else if code = 304 then some (str "Not Modified", str "Document has not changed since given time")
  else if code = 404 then some (str "Not Found", str "Nothing matches the given URI")
  else if code = 501 then some (str "Not Implemented", str "Server does not support this operation")
  else none

/-- The `DEFAULT_ERROR_MESSAGE` HTML template of CPython 3.11 `http/server.py`
(lines 112–126) with `%(code)d`, `%(message)s`, `%(explain)s` substituted. -/
def errorBody (code : Nat) (message explain : Str) : Str :=
  str "<!DOCTYPE HTML>\n<html lang=\"en\">\n    <head>\n        <meta charset=\"utf-8\">\n        <title>Error response</title>\n    </head>\n    <body>\n        <h1>Error response</h1>\n        <p>Error code: " ++
    natChars code ++
    str "</p>\n        <p>Message: " ++ message ++
    str ".</p>\n        <p>Error code explanation: " ++
    natChars code ++ str " - " ++ explain ++
    str ".</p>\n    </body>\n</html>\n"

/-- Embeds `BaseHTTPRequestHandler.send_error` (lines 436–488): log the error,
send the status with `Connection: close`, attach the HTML explanation body for
non-1xx/204/205/304 codes, finish the headers (through the CORS override), and
write the body unless the request was `HEAD`. -/
def sendError (cfg : Config) (st : St) (rl method : Str) (code : Nat)
    (message? : Option Str) : St :=
  let pair := (responsesTable code).getD (str "???", str "???")
  let message := message?.getD pair.1
  let explain := pair.2
  let st := logMessage cfg st (str "code " ++ natChars code ++ str ", message " ++ message)
  let st := sendResponse cfg st rl code
  let st := sendHeader st (str "Connection") (str "close")
  if 200 ≤ code ∧ code ≠ 204 ∧ code ≠ 205 ∧ code ≠ 304 then
    let body := bytesOf (errorBody code (htmlEscape message) (htmlEscape explain))
    let st := sendHeader st (str "Content-Type") (str "text/html;charset=utf-8")
    let st := sendHeader st (str "Content-Length") (natChars body.length)
    let st := endHeaders st
    if method ≠ str "HEAD" ∧ body ≠ [] then { st with body := st.body ++ body } else st
  else endHeaders st

/-- Abstract but injective rendering of `self.date_time_string(fs.st_mtime)`
for the `Last-Modified` header; no claim inspects its RFC 1123 shape. -/
def dateTimeStr (t : Nat) : Str := str "mtime-" ++ natChars t

/-- One `<li>` line of `list_directory`'s HTML (directory entries gain a
trailing slash; symbolic links are outside the model). -/
def dirEntryLine (fs : FS) (path name : Str) : Str :=
  let fullname := posixJoin path name
  let displayname := if fs.isdir fullname then name ++ ['/'] else name
  let linkname := if fs.isdir fullname then name ++ ['/'] else name
  str "<li><a href=\"" ++ urlQuote linkname ++ str "\">" ++
    htmlEscape displayname ++ str "</a></li>"

/-- Comparison on code points, Python's ordering of strings. -/
def strLeB : Str → Str → Bool
  | [], _ => true
  | _ :: _, [] => false
  | a :: as, b :: bs =>
    if a.toNat < b.toNat then true
    else if a.toNat = b.toNat then strLeB as bs
    else false

/-- Insertion into a list sorted by lowercased name. -/
def insertLower (x : Str) : List Str → List Str
  | [] => [x]
  | y :: ys => if strLeB (lowerStr x) (lowerStr y) then x :: y :: ys else y :: insertLower x ys

/-- Sorting by lowercased name, the `list.sort(key=lambda a: a.lower())` of
`list_directory`. -/
def sortLower (l : List Str) : List Str := l.foldr insertLower []

/-- Embeds `SimpleHTTPRequestHandler.list_directory` (lines 772–827): list the
directory (404 on failure), sort the names, build the HTML listing, and send
it with a 200 status.  Returns the body to stream, `none` on error. -/
def listDirectory (cfg : Config) (fs : FS) (r : Request) (st : St) (path : Str) :
    Option (List Nat) × St :=
  let st := stRead st path
  match fs.listing path with
  | none =>
    (none, sendError cfg st r.requestline r.method 404 (some (str "No permission to list directory")))
  | some names =>
    let sorted := sortLower names
    let st := { st with reads := st.reads ++ sorted.map (posixJoin path) }
    let displaypath := htmlEscape (unquote r.path)
    let title := str "Directory listing for " ++ displaypath
    let rlines :=
      [str "<!DOCTYPE HTML>", str "<html lang=\"en\">", str "<head>",
       str "<meta charset=\"utf-8\">",
       str "<title>" ++ title ++ str "</title>\n</head>",
       str "<body>\n<h1>" ++ title ++ str "</h1>",
       str "<hr>\n<ul>"] ++
      sorted.map (dirEntryLine fs path) ++
      [str "</ul>\n<hr>\n</body>\n</html>\n"]
    let encoded := bytesOf (joinCh '\n' rlines)
    let st := sendResponse cfg st r.requestline 200
    let st := sendHeader st (str "Content-type") (str "text/html; charset=utf-8")
    let st := sendHeader st (str "Content-Length") (natChars encoded.length)
    (some encoded, endHeaders st)

/-- The tail of `send_head` from `ctype = self.guess_type(path)` on: reject
paths with a trailing slash, open the file (404 on failure), answer 304 to a
satisfied `If-Modified-Since` precondition, and otherwise send 200 with the
content headers and return the file body. -/
def fileResponse (cfg : Config) (fs : FS) (r : Request) (st : St) (path : Str) :
    Option (List Nat) × St :=
  let ctype := guessType path
  if lastIs '/' path then
    (none, sendError cfg st r.requestline r.method 404 (some (str "File not found")))
  else
    let st := stRead st path
    match fs.lookupFile path with
    | none =>
      (none, sendError cfg st r.requestline r.method 404 (some (str "File not found")))
    | some fd =>
      if (!r.hasIfNoneMatch &&
          match r.ifModifiedSince with
          | some ims => decide (fd.mtime ≤ ims)
          | none => false) then
        (none, endHeaders (sendResponse cfg st r.requestline 304))
      else
        let st := sendResponse cfg st r.requestline 200
        let st := sendHeader st (str "Content-type") ctype
        let st := sendHeader st (str "Content-Length") (natChars fd.content.length)
        let st := sendHeader st (str "Last-Modified") (dateTimeStr fd.mtime)
        (some fd.content, endHeaders st)

/-- Embeds `SimpleHTTPRequestHandler.send_head` (lines 684–770): translate the
path; on a directory either redirect (no trailing slash in the URL), serve an
index file, or produce a listing; otherwise serve the file. -/
def sendHead (cfg : Config) (fs : FS) (r : Request) (st : St) :
    Option (List Nat) × St :=
  let path := translatePath cfg.directory r.path
  let st := stRead st path
  if fs.isdir path then
    if ¬ lastIs '/' (urlsplitPathOf r.path) then
      let st := sendResponse cfg st r.requestline 301
      let st := sendHeader st (str "Location") (redirectUrl r.path)
      let st := sendHeader st (str "Content-Length") (str "0")
      (none, endHeaders st)
    else
      let idx1 := posixJoin path (str "index.html")
      let st := stRead st idx1
      if fs.isfile idx1 then fileResponse cfg fs r st idx1
      else
        let idx2 := posixJoin path (str "index.htm")
        let st := stRead st idx2
        if fs.isfile idx2 then fileResponse cfg fs r st idx2
        else listDirectory cfg fs r st path
  else fileResponse cfg fs r st path

/-- Embeds `do_GET`: run `send_head` and stream the returned body. -/
def doGET (cfg : Config) (fs : FS) (r : Request) (st : St) : St :=
  match sendHead cfg fs r st with
  | (some b, st) => { st with body := st.body ++ b }
  | (none, st) => st

/-- Embeds `do_HEAD`: run `send_head` and discard the body. -/
def doHEAD (cfg : Config) (fs : FS) (r : Request) (st : St) : St :=
  (sendHead cfg fs r st).2

/-- Embeds the overridden `do_OPTIONS` (src/simple_server.py lines 21–23):
`send_response(200)` then `end_headers()`. -/
def doOPTIONS (cfg : Config) (r : Request) (st : St) : St :=
  endHeaders (sendResponse cfg st r.requestline 200)

/-- Embeds the method dispatch of `BaseHTTPRequestHandler.handle_one_request`
(lines 391–426) over `CORSHTTPRequestHandler`: the `do_`-methods that exist
are exactly `do_OPTIONS` (the override), `do_GET` and `do_HEAD` (inherited);
any other command is answered by `send_error(501, "Unsupported method (%r)")`. -/
def handleOneRequest (cfg : Config) (fs : FS) (r : Request) : St :=
  if r.method = str "OPTIONS" then doOPTIONS cfg r stInit
  else if r.method = str "GET" then doGET cfg fs r stInit
  else if r.method = str "HEAD" then doHEAD cfg fs r stInit
  else
    sendError cfg stInit r.requestline r.method 501
      (some (str "Unsupported method (" ++ quoteCh :: r.method ++ quoteCh :: str ")"))

/-- Python's `repr` of the address pair `('0.0.0.0', 8000)` interpolated by
the banner's f-string. -/
def addrRepr (host : Str) (port : Nat) : Str :=
  '(' :: quoteCh :: host ++ quoteCh :: str ", " ++ natChars port ++ str ")"

/-- The hardcoded listening port (src/simple_server.py line 32). -/
def PORT : Nat := 8000

/-- The startup banner (src/simple_server.py lines 35–40).  Note the second
line interpolates `httpd.server_address` — the bound socket address — under
the label `Serving files from:`. -/
def bannerLines (port : Nat) (serverAddress : Str) : List Str :=
  [ str "🚀 OKR Phoenix Project Server starting on port " ++ natChars port,
    str "📂 Serving files from: " ++ serverAddress,
    str "🌐 Access your application at: http://localhost:" ++ natChars port,
    str "🧪 Test API page: http://localhost:" ++ natChars port ++ str "/test-api.html",
    str "🔐 Login page: http://localhost:" ++ natChars port ++ str "/okr-login.html",
    List.replicate 60 '=' ]

/-- The farewell printed by the `KeyboardInterrupt` handler
(src/simple_server.py line 46). -/
def farewellLine : Str := str "\n👋 Server shutting down..."

/-- The two terminating runs of the `__main__` block: the socket bind raises,
or the bind succeeds and `serve_forever` is eventually interrupted.
(`serve_forever` without an interrupt does not terminate and has no outcome.) -/
inductive StartScenario
  | bindFails
  | servesThenInterrupt
deriving DecidableEq

/-- Observable outcome of one terminating run of the process. -/
structure MainResult where
  stdoutLines : List Str
  errorToConsole : Bool
  bindAttempts : Nat
  shutdownCalled : Bool
  exitCode : Nat
deriving DecidableEq

/-- Embeds the `__main__` block (src/simple_server.py lines 31–47).
`bindFails`: `TCPServer.__init__` raises before any banner line; the exception
is uncaught, so the interpreter prints the traceback and exits with status 1
(standard CPython semantics for an uncaught exception), and no retry exists in
the source.  `servesThenInterrupt`: the banner is printed and flushed, the
`KeyboardInterrupt` raised inside `serve_forever` is caught, the farewell is
printed, `httpd.shutdown()` is called, the `with` block closes the socket, and
the interpreter exits with status 0. -/
def runMain : StartScenario → MainResult
  | StartScenario.bindFails =>
    { stdoutLines := [], errorToConsole := true, bindAttempts := 1,
      shutdownCalled := false, exitCode := 1 }
  | StartScenario.servesThenInterrupt =>
    { stdoutLines := bannerLines PORT (addrRepr (str "0.0.0.0") PORT) ++ [farewellLine],
      errorToConsole := false, bindAttempts := 1,
      shutdownCalled := true, exitCode := 0 }

/-- The three headers the override injects, as claim C1 lists them. -/
def corsOrigin : Str × Str := (str "Access-Control-Allow-Origin", str "*")

/-- The methods CORS header of the override. -/
def corsMethods : Str × Str :=
  (str "Access-Control-Allow-Methods", str "GET, POST, OPTIONS, PUT, DELETE")

/-- The allowed-headers CORS header of the override. -/
def corsHeaders : Str × Str :=
  (str "Access-Control-Allow-Headers", str "Content-Type, Authorization")

/-- A response state carrying all three injected CORS headers with their
exact values. -/
def corsComplete (st : St) : Prop :=
  corsOrigin ∈ st.headers ∧ corsMethods ∈ st.headers ∧ corsHeaders ∈ st.headers

/-- Whether every character of the string is a decimal digit. -/
def allDigits (s : Str) : Bool :=
  s.all (fun c => decide (48 ≤ c.toNat ∧ c.toNat ≤ 57))

/-- A string of the shape `YYYY-MM-DD HH:MM:SS`: four digits, dash, two
digits, dash, two digits, space, two digits, colon, two digits, colon, two
digits. -/
def tsPattern (s : Str) : Prop :=
  ∃ y mo d h mi se : Str,
    s = y ++ '-' :: mo ++ '-' :: d ++ ' ' :: h ++ ':' :: mi ++ ':' :: se ∧
    y.length = 4 ∧ mo.length = 2 ∧ d.length = 2 ∧ h.length = 2 ∧
    mi.length = 2 ∧ se.length = 2 ∧
    allDigits y = true ∧ allDigits mo = true ∧ allDigits d = true ∧
    allDigits h = true ∧ allDigits mi = true ∧ allDigits se = true

/-- A broken-down time whose rendered fields have their calendar widths: a
four-digit year and two-digit remaining fields (every real clock reading
satisfies this). -/
def validTm (t : Tm) : Prop :=
  1000 ≤ t.year ∧ t.year ≤ 9999 ∧ t.month ≤ 99 ∧ t.day ≤ 99 ∧
    t.hour ≤ 99 ∧ t.minute ≤ 99 ∧ t.second ≤ 99

/-- The stdout event stream `log_message` produces for a list of messages:
for each message one timestamped line written and one immediate flush. -/
def logShape (cfg : Config) (msgs : List Str) : List OutEvent :=
  msgs.flatMap (fun m =>
    [OutEvent.write ('[' :: strftimeYmdHMS cfg.now ++ str "] " ++ m ++ str "\n"),
     OutEvent.flush])

/-- The logging invariant: the stdout events are exactly one timestamped
line plus an immediate flush per logged message, and no logged message embeds
a newline (so each write is exactly one line). -/
def logOK (cfg : Config) (st : St) : Prop :=
  st.events = logShape cfg st.msgs ∧ ∀ m ∈ st.msgs, '\n' ∉ m

/-- Number of `write` events (lines sent to stdout) in an event stream. -/
def writeCount (evs : List OutEvent) : Nat :=
  (evs.filter (fun e => match e with | OutEvent.write _ => true | OutEvent.flush => false)).length

/-- Concrete handler configuration for the witness evaluations. -/
def cfgEx : Config :=
  ⟨str "/srv", str "SimpleHTTP/0.6 Python/3.11.6",
   str "Thu, 01 Jan 2026 00:00:00 GMT", ⟨2026, 1, 2, 3, 4, 5⟩⟩

/-- Concrete filesystem for the witness evaluations: one served file (bytes
`hi`, modification time 50) and one subdirectory. -/
def fsEx : FS :=
  ⟨[(str "/srv/test-api.html", ⟨[104, 105], 50⟩)], [(str "/srv/sub", [str "a.txt"])]⟩

/-- A plain `GET` for the existing file. -/
def reqGetEx : Request :=
  ⟨str "GET", str "/test-api.html", str "GET /test-api.html HTTP/1.1", none, false⟩

/-- A conditional `GET` for the existing file whose `If-Modified-Since`
precondition (parsed value 100) is satisfied by the file's mtime 50. -/
def reqCondGetEx : Request :=
  ⟨str "GET", str "/test-api.html", str "GET /test-api.html HTTP/1.1", some 100, false⟩

/-- A `GET` for a path with no corresponding file. -/
def reqGetMissingEx : Request :=
  ⟨str "GET", str "/missing", str "GET /missing HTTP/1.1", none, false⟩

/-- An `OPTIONS` request for an arbitrary path. -/
def reqOptionsEx : Request :=
  ⟨str "OPTIONS", str "/anything", str "OPTIONS /anything HTTP/1.1", none, false⟩

/-- An `OPTIONS` request for a path with no corresponding file. -/
def reqOptionsMissingEx : Request :=
  ⟨str "OPTIONS", str "/missing", str "OPTIONS /missing HTTP/1.1", none, false⟩

/-- A `POST` to the path of the existing file. -/
def reqPostEx : Request :=
  ⟨str "POST", str "/test-api.html", str "POST /test-api.html HTTP/1.1", none, false⟩

/-- A `PUT` to the path of the existing file. -/
def reqPutEx : Request :=
  ⟨str "PUT", str "/test-api.html", str "PUT /test-api.html HTTP/1.1", none, false⟩

/-! ### Helper lemmas about decimal renderings -/

theorem natDigsF_zero (f : Nat) : natDigsF f 0 = [] := by
  cases f <;> rfl

theorem digitCh_digit (n : Nat) :
    48 ≤ (digitCh n).toNat ∧ (digitCh n).toNat ≤ 57 := by
  unfold digitCh
  split <;> decide

theorem natDigsF_allDigits (fuel : Nat) :
    ∀ n, allDigits (natDigsF fuel n) = true := by
  induction fuel with
  | zero => intro n; rfl
  | succ fuel ih =>
    intro n
    by_cases h : n = 0
    · simp [natDigsF, h, allDigits]
    · simp only [natDigsF, if_neg h, allDigits, List.all_append, Bool.and_eq_true]
      refine And.intro ?_ ?_
      · exact ih (n / 10)
      · simpa using digitCh_digit n

theorem natChars_allDigits (n : Nat) : allDigits (natChars n) = true := by
  unfold natChars
  split
  · rfl
  · exact natDigsF_allDigits (n + 1) n

theorem pad2_allDigits (n : Nat) : allDigits (pad2 n) = true := by
  unfold pad2
  split
  · have h := natChars_allDigits n
    unfold allDigits at h ⊢
    simp only [List.all_cons, Bool.and_eq_true]
    exact ⟨by decide, h⟩
  · exact natChars_allDigits n

theorem allDigits_no_nl {s : Str} (h : allDigits s = true) : '\n' ∉ s := by
  intro hmem
  simp only [allDigits, List.all_eq_true] at h
  have := h '\n' hmem
  simp at this

theorem natChars_no_nl (n : Nat) : '\n' ∉ natChars n :=
  allDigits_no_nl (natChars_allDigits n)

theorem natDigsF_length (k : Nat) :
    ∀ fuel n, 10 ^ k ≤ n → n < 10 ^ (k + 1) → k + 1 ≤ fuel →
      (natDigsF fuel n).length = k + 1 := by
  induction k with
  | zero =>
    intro fuel n h1 h2 hf
    match fuel, hf with
    | fuel + 1, _ =>
      have hn : n ≠ 0 := by simpa using Nat.one_le_iff_ne_zero.mp (by simpa using h1)
      have hdiv : n / 10 = 0 := Nat.div_eq_of_lt (by simpa using h2)
      simp [natDigsF, hn, hdiv, natDigsF_zero]
  | succ k ih =>
    intro fuel n h1 h2 hf
    match fuel, hf with
    | fuel + 1, _ =>
      have hp : 0 < (10 : Nat) ^ (k + 1) := Nat.pos_pow_of_pos _ (by omega)
      have hn : n ≠ 0 := by omega
      have hd1 : 10 ^ k ≤ n / 10 := by
        rw [Nat.le_div_iff_mul_le (by omega)]
        calc 10 ^ k * 10 = 10 ^ (k + 1) := by ring
        _ ≤ n := h1
      have hd2 : n / 10 < 10 ^ (k + 1) := by
        rw [Nat.div_lt_iff_lt_mul (by omega)]
        calc n < 10 ^ (k + 1 + 1) := h2
        _ = 10 ^ (k + 1) * 10 := by ring
      have hrec := ih fuel (n / 10) hd1 hd2 (by omega)
      simp [natDigsF, hn, hrec]

theorem natChars_length_four {n : Nat} (h1 : 1000 ≤ n) (h2 : n ≤ 9999) :
    (natChars n).length = 4 := by
  have hn : n ≠ 0 := by omega
  unfold natChars
  rw [if_neg hn]
  exact natDigsF_length 3 (n + 1) n (by norm_num; omega) (by norm_num; omega) (by omega)

theorem pad2_length {n : Nat} (h : n ≤ 99) : (pad2 n).length = 2 := by
  unfold pad2
  split
  · rename_i hlt
    by_cases h0 : n = 0
    · simp [h0, natChars]
    · have := natDigsF_length 0 (n + 1) n (by omega) (by norm_num; omega) (by omega)
      unfold natChars
      rw [if_neg h0]
      simp [this]
  · rename_i hge
    have h10 : 10 ≤ n := by omega
    have hn : n ≠ 0 := by omega
    unfold natChars
    rw [if_neg hn]
    exact natDigsF_length 1 (n + 1) n (by norm_num; omega) (by norm_num; omega) (by omega)

theorem strftime_tsPattern {t : Tm} (h : validTm t) :
    tsPattern (strftimeYmdHMS t) := by
  obtain ⟨hy1, hy2, hmo, hd, hh, hmi, hs⟩ := h
  refine ⟨natChars t.year, pad2 t.month, pad2 t.day, pad2 t.hour,
    pad2 t.minute, pad2 t.second, rfl,
    natChars_length_four hy1 hy2, pad2_length hmo, pad2_length hd,
    pad2_length hh, pad2_length hmi, pad2_length hs,
    natChars_allDigits _, pad2_allDigits _, pad2_allDigits _,
    pad2_allDigits _, pad2_allDigits _, pad2_allDigits _⟩

theorem strftime_no_nl (t : Tm) : '\n' ∉ strftimeYmdHMS t := by
  intro h
  unfold strftimeYmdHMS at h
  have hy := natChars_no_nl t.year
  have hmo := allDigits_no_nl (pad2_allDigits t.month)
  have hd := allDigits_no_nl (pad2_allDigits t.day)
  have hh := allDigits_no_nl (pad2_allDigits t.hour)
  have hmi := allDigits_no_nl (pad2_allDigits t.minute)
  have hse := allDigits_no_nl (pad2_allDigits t.second)
  have e1 : ('\n' : Char) ≠ '-' := by decide
  have e2 : ('\n' : Char) ≠ ' ' := by decide
  have e3 : ('\n' : Char) ≠ ':' := by decide
  simp only [List.mem_append, List.mem_cons] at h
  tauto

/-! ### Claims C7, C8, C9 — the `__main__` block -/

/-- C7: when an interrupt arrives while serving, the interrupt is caught, the
farewell line is printed, `shutdown()` is called on the listener, and the
process exits with code 0. -/
theorem C7_interrupt_clean_shutdown :
    (runMain StartScenario.servesThenInterrupt).exitCode = 0 ∧
    (runMain StartScenario.servesThenInterrupt).shutdownCalled = true ∧
    farewellLine ∈ (runMain StartScenario.servesThenInterrupt).stdoutLines := by
  refine ⟨rfl, rfl, ?_⟩
  simp [runMain]

/-- C8: when binding the listening socket fails, the process fails to start
(no banner output), the error is propagated to the console, the exit status is
non-zero, and exactly one bind attempt is made (no retry). -/
theorem C8_bind_failure_no_retry :
    (runMain StartScenario.bindFails).exitCode ≠ 0 ∧
    (runMain StartScenario.bindFails).errorToConsole = true ∧
    (runMain StartScenario.bindFails).bindAttempts = 1 ∧
    (runMain StartScenario.bindFails).stdoutLines = [] := by
  exact ⟨by decide, rfl, rfl, rfl⟩

/-- C9: the startup banner's second line, labelled `Serving files from:`,
interpolates the bound socket address `('0.0.0.0', 8000)` — a string with no
path separator at all — and not the serving directory, contradicting the
documented intent of the label. -/
theorem C9_banner_prints_address_not_directory :
    (runMain StartScenario.servesThenInterrupt).stdoutLines[1]? =
      some (str "📂 Serving files from: " ++ addrRepr (str "0.0.0.0") 8000) ∧
    hasSlash (str "📂 Serving files from: " ++ addrRepr (str "0.0.0.0") 8000) = false := by
  exact ⟨by decide, by decide⟩

/-! ### Claim C10 — `translate_path` confines the resolved path -/

theorem foldGuard_eq_filter (ws : List Str) :
    ∀ acc : Str,
      ws.foldl
        (fun acc w =>
          if hasSlash w ∨ w = str "." ∨ w = str ".." then acc else posixJoin acc w)
        acc =
      (ws.filter (fun w => ¬(hasSlash w ∨ w = str "." ∨ w = str ".."))).foldl posixJoin acc := by
  induction ws with
  | nil => intro acc; rfl
  | cons w ws ih =>
    intro acc
    by_cases h : hasSlash w ∨ w = str "." ∨ w = str ".."
    · rw [List.foldl_cons, if_pos h, List.filter_cons, if_neg (by simp [h]), ih acc]
    · rw [List.foldl_cons, if_neg h, List.filter_cons, if_pos (by simp [h]),
        List.foldl_cons, ih (posixJoin acc w)]

theorem posixJoin_extends {b : Str} (hb : b.head? ≠ some '/') (a : Str) :
    ∃ s, posixJoin a b = a ++ s := by
  unfold posixJoin
  rw [if_neg hb]
  by_cases h : a = [] ∨ lastIs '/' a
  · exact ⟨b, by rw [if_pos h]⟩
  · exact ⟨'/' :: b, by rw [if_neg h]⟩

theorem foldl_posixJoin_extends (ws : List Str)
    (hws : ∀ w ∈ ws, w.head? ≠ some '/') :
    ∀ acc : Str, ∃ s, ws.foldl posixJoin acc = acc ++ s := by
  induction ws with
  | nil => intro acc; exact ⟨[], by simp⟩
  | cons w ws ih =>
    intro acc
    obtain ⟨t, ht⟩ := posixJoin_extends (hws w (by simp)) acc
    obtain ⟨s, hs⟩ := ih (fun v hv => hws v (by simp [hv])) (posixJoin acc w)
    exact ⟨t ++ s, by rw [List.foldl_cons, hs, ht, List.append_assoc]⟩

theorem joinedParts_clean (p : Str) :
    ∀ w ∈ joinedParts p, w ≠ [] ∧ hasSlash w = false ∧ w ≠ str "." ∧ w ≠ str ".." := by
  intro w hw
  unfold joinedParts at hw
  rw [List.mem_filter] at hw
  obtain ⟨hw1, hw2⟩ := hw
  rw [List.mem_filter] at hw1
  obtain ⟨_, hne⟩ := hw1
  rw [decide_eq_true_eq] at hw2
  rw [not_or, not_or] at hw2
  refine ⟨by simpa using hne, ?_, hw2.2.1, hw2.2.2⟩
  simpa using hw2.1

theorem joinedParts_head_not_slash (p : Str) :
    ∀ w ∈ joinedParts p, w.head? ≠ some '/' := by
  intro w hw
  obtain ⟨hne, hsl, _, _⟩ := joinedParts_clean p w hw
  intro hhead
  match w, hne, hhead with
  | c :: rest, _, hhead =>
    have hc : c = '/' := by simpa using hhead
    have : hasSlash (c :: rest) = true := by
      simp [hasSlash, hc]
    rw [this] at hsl
    exact absurd hsl (by decide)

theorem translatePath_eq_resolved (directory p : Str) :
    translatePath directory p = resolvedOf directory p := by
  unfold translatePath resolvedOf joinedParts wantsTrailingSlash
  dsimp only
  rw [foldGuard_eq_filter]

/-- C10: for every serving root and every request path — `..` segments,
percent-encoded traversal, and absolute components included — the path
`translate_path` resolves is the serving root extended by components, each of
which is a nonempty simple name: never `..`, never `.`, never containing a
slash.  Hence no request can name a file outside the serving root. -/
theorem C10_translate_path_confined (directory p : Str) :
    translatePath directory p = resolvedOf directory p ∧
    (∃ s, translatePath directory p = directory ++ s) ∧
    ∀ w ∈ joinedParts p, w ≠ [] ∧ hasSlash w = false ∧ w ≠ str "." ∧ w ≠ str ".." := by
  refine ⟨translatePath_eq_resolved directory p, ?_, joinedParts_clean p⟩
  rw [translatePath_eq_resolved directory p]
  unfold resolvedOf
  obtain ⟨s, hs⟩ :=
    foldl_posixJoin_extends (joinedParts p) (joinedParts_head_not_slash p) directory
  by_cases ht : wantsTrailingSlash p
  · exact ⟨s ++ ['/'], by simp only [if_pos ht, hs, List.append_assoc]⟩
  · exact ⟨s, by simp only [if_neg ht, hs]⟩

/-! ### Claim C1 — the CORS headers are on every response -/

theorem corsComplete_endHeaders (st : St) : corsComplete (endHeaders st) := by
  unfold corsComplete endHeaders endHeadersBase sendHeader
  refine ⟨?_, ?_, ?_⟩ <;> simp [corsOrigin, corsMethods, corsHeaders]

theorem corsComplete_setBody (st : St) (b : List Nat) (h : corsComplete st) :
    corsComplete { st with body := b } := h

theorem corsComplete_sendError (cfg : Config) (st : St) (rl m : Str) (code : Nat)
    (msg? : Option Str) : corsComplete (sendError cfg st rl m code msg?) := by
  unfold sendError
  dsimp only
  split
  · split
    · exact corsComplete_setBody _ _ (corsComplete_endHeaders _)
    · exact corsComplete_endHeaders _
  · exact corsComplete_endHeaders _

theorem corsComplete_fileResponse (cfg : Config) (fs : FS) (r : Request) (st : St)
    (p : Str) : corsComplete (fileResponse cfg fs r st p).2 := by
  unfold fileResponse
  dsimp only
  split
  · exact corsComplete_sendError _ _ _ _ _ _
  · split
    · exact corsComplete_sendError _ _ _ _ _ _
    · split
      · exact corsComplete_endHeaders _
      · exact corsComplete_endHeaders _

theorem corsComplete_listDirectory (cfg : Config) (fs : FS) (r : Request) (st : St)
    (p : Str) : corsComplete (listDirectory cfg fs r st p).2 := by
  unfold listDirectory
  dsimp only
  split
  · exact corsComplete_sendError _ _ _ _ _ _
  · exact corsComplete_endHeaders _

theorem corsComplete_sendHead (cfg : Config) (fs : FS) (r : Request) (st : St) :
    corsComplete (sendHead cfg fs r st).2 := by
  unfold sendHead
  dsimp only
  split
  · split
    · exact corsComplete_endHeaders _
    · split
      · exact corsComplete_fileResponse _ _ _ _ _
      · split
        · exact corsComplete_fileResponse _ _ _ _ _
        · exact corsComplete_listDirectory _ _ _ _ _
  · exact corsComplete_fileResponse _ _ _ _ _

theorem corsComplete_doGET (cfg : Config) (fs : FS) (r : Request) (st : St) :
    corsComplete (doGET cfg fs r st) := by
  unfold doGET
  rcases h : sendHead cfg fs r st with ⟨b?, st'⟩
  have hc : corsComplete st' := by
    have := corsComplete_sendHead cfg fs r st
    rw [h] at this
    exact this
  cases b? with
  | some b => exact corsComplete_setBody _ _ hc
  | none => exact hc

/-- C1: every HTTP response the handler produces — any method, any status,
success, error or redirect — carries the three CORS headers
`Access-Control-Allow-Origin: *`,
`Access-Control-Allow-Methods: GET, POST, OPTIONS, PUT, DELETE`, and
`Access-Control-Allow-Headers: Content-Type, Authorization`, because every
response path terminates its header block through the overridden
`end_headers`. -/
theorem C1_cors_headers_on_every_response (cfg : Config) (fs : FS) (r : Request) :
    corsOrigin ∈ (handleOneRequest cfg fs r).headers ∧
    corsMethods ∈ (handleOneRequest cfg fs r).headers ∧
    corsHeaders ∈ (handleOneRequest cfg fs r).headers := by
  have : corsComplete (handleOneRequest cfg fs r) := by
    unfold handleOneRequest
    split
    · exact corsComplete_endHeaders _
    · split
      · exact corsComplete_doGET _ _ _ _
      · split
        · exact corsComplete_sendHead _ _ _ _
        · exact corsComplete_sendError _ _ _ _ _ _
  exact this

/-! ### Claim C2 — `OPTIONS` requests -/

/-- C2: every `OPTIONS` request, whatever its path, is answered with status
200 (a 2xx status), an empty body, and no filesystem access at all. -/
theorem C2_options_empty_success_no_fs (cfg : Config) (fs : FS) (r : Request)
    (hm : r.method = str "OPTIONS") :
    (handleOneRequest cfg fs r).statusCode = 200 ∧
    200 ≤ (handleOneRequest cfg fs r).statusCode ∧
    (handleOneRequest cfg fs r).statusCode < 300 ∧
    (handleOneRequest cfg fs r).body = [] ∧
    (handleOneRequest cfg fs r).reads = [] := by
  unfold handleOneRequest
  rw [if_pos hm]
  unfold doOPTIONS endHeaders endHeadersBase sendResponse
    sendResponseOnly logRequest logMessage stInit St.statusCode
  simp [sendHeader]

/-- Witness for C2: the concrete `OPTIONS /anything` request. -/
theorem C2_options_empty_success_no_fs_witness :
    reqOptionsEx.method = str "OPTIONS" ∧
    (handleOneRequest cfgEx fsEx reqOptionsEx).statusCode = 200 ∧
    200 ≤ (handleOneRequest cfgEx fsEx reqOptionsEx).statusCode ∧
    (handleOneRequest cfgEx fsEx reqOptionsEx).statusCode < 300 ∧
    (handleOneRequest cfgEx fsEx reqOptionsEx).body = [] ∧
    (handleOneRequest cfgEx fsEx reqOptionsEx).reads = [] := by
  refine ⟨by decide, ?_⟩
  exact C2_options_empty_success_no_fs cfgEx fsEx reqOptionsEx (by decide)

/-! ### Claim C3 — non-`OPTIONS` methods and file serving -/

/-- Counterexample to C3: a `POST` to the path of an existing file is answered
501 (`Unsupported method`), which is neither a 2xx file-serving response with
the file's bytes nor a 404-class response — the base handler implements no
`do_POST`/`do_PUT`/`do_DELETE`, so those methods never reach file serving. -/
theorem C3_counterexample_post_gets_501 :
    (handleOneRequest cfgEx fsEx reqPostEx).statusCode = 501 ∧
    ¬((200 ≤ (handleOneRequest cfgEx fsEx reqPostEx).statusCode ∧
        (handleOneRequest cfgEx fsEx reqPostEx).statusCode < 300) ∨
      (400 ≤ (handleOneRequest cfgEx fsEx reqPostEx).statusCode ∧
        (handleOneRequest cfgEx fsEx reqPostEx).statusCode < 500)) ∧
    (handleOneRequest cfgEx fsEx reqPostEx).body ≠ [104, 105] := by
  refine ⟨by decide, ?_, ?_⟩ <;> decide

/-- C3 as amended: only `GET` and `HEAD` pass through to file serving;
every method other than `OPTIONS`, `GET` and `HEAD` (so `POST`, `PUT`,
`DELETE` included) is answered with `501 Not Implemented`. -/
theorem C3_amended_other_methods_get_501 (cfg : Config) (fs : FS) (r : Request)
    (h1 : r.method ≠ str "OPTIONS") (h2 : r.method ≠ str "GET")
    (h3 : r.method ≠ str "HEAD") :
    (handleOneRequest cfg fs r).statusCode = 501 := by
  unfold handleOneRequest
  rw [if_neg h1, if_neg h2, if_neg h3]
  unfold sendError sendResponse sendResponseOnly logRequest logMessage
    endHeaders endHeadersBase St.statusCode
  split
  · dsimp only
    split <;> simp [sendHeader]
  · simp [sendHeader]

/-- Witness for the amended C3: the concrete `PUT` request is answered 501. -/
theorem C3_amended_other_methods_get_501_witness :
    reqPutEx.method ≠ str "OPTIONS" ∧ reqPutEx.method ≠ str "GET" ∧
    reqPutEx.method ≠ str "HEAD" ∧
    (handleOneRequest cfgEx fsEx reqPutEx).statusCode = 501 := by
  refine ⟨by decide, by decide, by decide, ?_⟩
  exact C3_amended_other_methods_get_501 cfgEx fsEx reqPutEx (by decide) (by decide) (by decide)

/-! ### Claims C4 and C5 — file serving and missing files -/

theorem sendError_statusCode (cfg : Config) (st : St) (rl m : Str) (code : Nat)
    (msg? : Option Str) : (sendError cfg st rl m code msg?).statusCode = code := by
  unfold sendError sendResponse sendResponseOnly logRequest logMessage
    endHeaders endHeadersBase St.statusCode
  dsimp only
  split
  · split <;> simp [sendHeader]
  · simp [sendHeader]

theorem doGET_statusCode (cfg : Config) (fs : FS) (r : Request) (st : St) :
    (doGET cfg fs r st).statusCode = ((sendHead cfg fs r st).2).statusCode := by
  unfold doGET
  rcases h : sendHead cfg fs r st with ⟨b?, st'⟩
  cases b? <;> simp [St.statusCode]

/-- C4 as amended: a `GET` whose resolved path names an existing regular file
(not a directory, no trailing slash) and which carries no `If-Modified-Since`
precondition is answered 200 with exactly the file's bytes as body.  (The
counterexample shows the unrestricted claim fails for conditional `GET`s.) -/
theorem C4_amended_get_existing_file (cfg : Config) (fs : FS) (r : Request)
    (fd : FileData)
    (hm : r.method = str "GET")
    (hims : r.ifModifiedSince = none)
    (hdir : fs.isdir (translatePath cfg.directory r.path) = false)
    (hslash : lastIs '/' (translatePath cfg.directory r.path) = false)
    (hfile : fs.lookupFile (translatePath cfg.directory r.path) = some fd) :
    (handleOneRequest cfg fs r).statusCode = 200 ∧
    200 ≤ (handleOneRequest cfg fs r).statusCode ∧
    (handleOneRequest cfg fs r).statusCode < 300 ∧
    (handleOneRequest cfg fs r).body = fd.content := by
  have hms : r.method ≠ str "OPTIONS" := by rw [hm]; decide
  unfold handleOneRequest
  rw [if_neg hms, if_pos hm]
  unfold doGET sendHead fileResponse
  dsimp only
  rw [hdir, hslash, hfile, hims]
  simp only [Bool.false_eq_true, if_false, Bool.and_false]
  unfold sendResponse sendResponseOnly logRequest logMessage endHeaders
    endHeadersBase stRead stInit St.statusCode
  simp [sendHeader]

/-- Witness for the amended C4: `GET /test-api.html` on the concrete
filesystem returns 200 with the file's bytes. -/
theorem C4_amended_get_existing_file_witness :
    reqGetEx.method = str "GET" ∧ reqGetEx.ifModifiedSince = none ∧
    fsEx.isdir (translatePath cfgEx.directory reqGetEx.path) = false ∧
    lastIs '/' (translatePath cfgEx.directory reqGetEx.path) = false ∧
    fsEx.lookupFile (translatePath cfgEx.directory reqGetEx.path) =
      some ⟨[104, 105], 50⟩ ∧
    (handleOneRequest cfgEx fsEx reqGetEx).statusCode = 200 ∧
    (handleOneRequest cfgEx fsEx reqGetEx).body = [104, 105] := by
  refine ⟨by decide, by decide, by decide, by decide, by decide, ?_⟩
  have h := C4_amended_get_existing_file cfgEx fsEx reqGetEx ⟨[104, 105], 50⟩
    (by decide) (by decide) (by decide) (by decide) (by decide)
  exact ⟨h.1, h.2.2.2⟩

/-- Counterexample to C4 as stated: a conditional `GET` for an existing file
whose `If-Modified-Since` precondition is satisfied is answered 304 with an
empty body — not a 2xx status and not the file's bytes. -/
theorem C4_counterexample_conditional_get :
    (handleOneRequest cfgEx fsEx reqCondGetEx).statusCode = 304 ∧
    (handleOneRequest cfgEx fsEx reqCondGetEx).body = [] ∧
    ¬(200 ≤ (handleOneRequest cfgEx fsEx reqCondGetEx).statusCode ∧
      (handleOneRequest cfgEx fsEx reqCondGetEx).statusCode < 300 ∧
      (handleOneRequest cfgEx fsEx reqCondGetEx).body = [104, 105]) := by
  refine ⟨by decide, by decide, ?_⟩
  decide

/-- C5 as amended: a `GET` or `HEAD` request whose resolved path names neither
an existing file nor a directory is answered 404, a 4xx status, and the
handler still produces a complete response (the failed filesystem lookup is
converted into an HTTP error, not a crash).  The counterexample shows the
claim as stated — over every request — fails for `OPTIONS`. -/
theorem C5_amended_missing_file_404 (cfg : Config) (fs : FS) (r : Request)
    (hm : r.method = str "GET" ∨ r.method = str "HEAD")
    (hdir : fs.isdir (translatePath cfg.directory r.path) = false)
    (hfile : fs.lookupFile (translatePath cfg.directory r.path) = none) :
    (handleOneRequest cfg fs r).statusCode = 404 ∧
    400 ≤ (handleOneRequest cfg fs r).statusCode ∧
    (handleOneRequest cfg fs r).statusCode < 500 := by
  have hsh : ∀ st : St, ((sendHead cfg fs r st).2).statusCode = 404 := by
    intro st
    unfold sendHead fileResponse
    dsimp only
    rw [hdir]
    simp only [Bool.false_eq_true, if_false]
    split
    · exact sendError_statusCode _ _ _ _ _ _
    · rw [hfile]
      exact sendError_statusCode _ _ _ _ _ _
  rcases hm with hm | hm
  · have hms : r.method ≠ str "OPTIONS" := by rw [hm]; decide
    unfold handleOneRequest
    rw [if_neg hms, if_pos hm]
    rw [doGET_statusCode, hsh stInit]
    exact ⟨rfl, by omega, by omega⟩
  · have hms : r.method ≠ str "OPTIONS" := by rw [hm]; decide
    have hmg : r.method ≠ str "GET" := by rw [hm]; decide
    unfold handleOneRequest
    rw [if_neg hms, if_neg hmg, if_pos hm]
    unfold doHEAD
    rw [hsh stInit]
    exact ⟨rfl, by omega, by omega⟩

/-- Witness for the amended C5: `GET /missing` is answered 404. -/
theorem C5_amended_missing_file_404_witness :
    (reqGetMissingEx.method = str "GET" ∨ reqGetMissingEx.method = str "HEAD") ∧
    fsEx.isdir (translatePath cfgEx.directory reqGetMissingEx.path) = false ∧
    fsEx.lookupFile (translatePath cfgEx.directory reqGetMissingEx.path) = none ∧
    (handleOneRequest cfgEx fsEx reqGetMissingEx).statusCode = 404 := by
  refine ⟨Or.inl (by decide), by decide, by decide, ?_⟩
  exact (C5_amended_missing_file_404 cfgEx fsEx reqGetMissingEx
    (Or.inl (by decide)) (by decide) (by decide)).1

/-- Counterexample to C5 as stated: `OPTIONS /missing` addresses a path with
no corresponding file yet is answered 200, not a 4xx status. -/
theorem C5_counterexample_options_missing :
    fsEx.lookupFile (translatePath cfgEx.directory reqOptionsMissingEx.path) = none ∧
    (handleOneRequest cfgEx fsEx reqOptionsMissingEx).statusCode = 200 ∧
    ¬(400 ≤ (handleOneRequest cfgEx fsEx reqOptionsMissingEx).statusCode ∧
      (handleOneRequest cfgEx fsEx reqOptionsMissingEx).statusCode < 500) := by
  refine ⟨by decide, by decide, ?_⟩
  decide

/-! ### Claim C6 — the access log -/

theorem logShape_append (cfg : Config) (a b : List Str) :
    logShape cfg (a ++ b) = logShape cfg a ++ logShape cfg b := by
  simp [logShape]

theorem logOK_stInit (cfg : Config) : logOK cfg stInit := by
  refine ⟨rfl, ?_⟩
  intro m hm
  simp [stInit] at hm

theorem logOK_logMessage (cfg : Config) (st : St) (msg : Str)
    (h : logOK cfg st) (hm : '\n' ∉ msg) : logOK cfg (logMessage cfg st msg) := by
  obtain ⟨he, hok⟩ := h
  unfold logOK logMessage
  dsimp only
  refine ⟨?_, ?_⟩
  · rw [logShape_append, he]
    simp [logShape]
  · intro m hmem
    rw [List.mem_append] at hmem
    rcases hmem with h1 | h1
    · exact hok m h1
    · rw [List.mem_singleton] at h1
      subst h1
      exact hm

theorem rlMsg_no_nl {rl : Str} (h : '\n' ∉ rl) (code : Nat) :
    '\n' ∉ '"' :: rl ++ '"' :: ' ' :: natChars code ++ str " -" := by
  intro hmem
  have h2 := natChars_no_nl code
  have e1 : ('\n' : Char) ≠ '"' := by decide
  have e2 : ('\n' : Char) ≠ ' ' := by decide
  have e3 : '\n' ∉ str " -" := by decide
  simp only [List.mem_cons, List.mem_append] at hmem
  tauto

theorem logOK_sendResponse (cfg : Config) (st : St) (rl : Str) (code : Nat)
    (h : logOK cfg st) (hrl : '\n' ∉ rl) :
    logOK cfg (sendResponse cfg st rl code) :=
  logOK_logMessage cfg st _ h (rlMsg_no_nl hrl code)

theorem errMsg_no_nl (code : Nat) {message : Str} (h : '\n' ∉ message) :
    '\n' ∉ str "code " ++ natChars code ++ str ", message " ++ message := by
  intro hmem
  have h2 := natChars_no_nl code
  have e1 : '\n' ∉ str "code " := by decide
  have e2 : '\n' ∉ str ", message " := by decide
  simp only [List.mem_append] at hmem
  tauto

theorem logOK_sendError (cfg : Config) (st : St) (rl m : Str) (code : Nat)
    (msg? : Option Str) (h : logOK cfg st) (hrl : '\n' ∉ rl)
    (hmsg : '\n' ∉ msg?.getD ((responsesTable code).getD (str "???", str "???")).1) :
    logOK cfg (sendError cfg st rl m code msg?) := by
  unfold sendError
  dsimp only
  have hbase : logOK cfg
      (sendResponse cfg
        (logMessage cfg st
          (str "code " ++ natChars code ++ str ", message " ++
            msg?.getD ((responsesTable code).getD (str "???", str "???")).1))
        rl code) :=
    logOK_sendResponse cfg _ rl code
      (logOK_logMessage cfg st _ h (errMsg_no_nl code hmsg)) hrl
  split
  · split
    · exact hbase
    · exact hbase
  · exact hbase

theorem logOK_fileResponse (cfg : Config) (fs : FS) (r : Request) (st : St)
    (p : Str) (h : logOK cfg st) (hrl : '\n' ∉ r.requestline) :
    logOK cfg (fileResponse cfg fs r st p).2 := by
  unfold fileResponse
  dsimp only
  split
  · exact logOK_sendError cfg _ _ _ 404 _ h hrl (by decide)
  · split
    · exact logOK_sendError cfg _ _ _ 404 _ h hrl (by decide)
    · split
      · exact logOK_sendResponse cfg _ _ 304 h hrl
      · exact logOK_sendResponse cfg _ _ 200 h hrl

theorem logOK_listDirectory (cfg : Config) (fs : FS) (r : Request) (st : St)
    (p : Str) (h : logOK cfg st) (hrl : '\n' ∉ r.requestline) :
    logOK cfg (listDirectory cfg fs r st p).2 := by
  unfold listDirectory
  dsimp only
  split
  · exact logOK_sendError cfg _ _ _ 404 _ h hrl (by decide)
  · exact logOK_sendResponse cfg _ _ 200 h hrl

theorem logOK_sendHead (cfg : Config) (fs : FS) (r : Request) (st : St)
    (h : logOK cfg st) (hrl : '\n' ∉ r.requestline) :
    logOK cfg (sendHead cfg fs r st).2 := by
  unfold sendHead
  dsimp only
  split
  · split
    · exact logOK_sendResponse cfg _ _ 301 h hrl
    · split
      · exact logOK_fileResponse cfg fs r _ _ h hrl
      · split
        · exact logOK_fileResponse cfg fs r _ _ h hrl
        · exact logOK_listDirectory cfg fs r _ _ h hrl
  · exact logOK_fileResponse cfg fs r _ _ h hrl

theorem logOK_doGET (cfg : Config) (fs : FS) (r : Request) (st : St)
    (h : logOK cfg st) (hrl : '\n' ∉ r.requestline) :
    logOK cfg (doGET cfg fs r st) := by
  unfold doGET
  rcases hsh : sendHead cfg fs r st with ⟨b?, st'⟩
  have h2 := logOK_sendHead cfg fs r st h hrl
  rw [hsh] at h2
  cases b? with
  | some b => exact h2
  | none => exact h2

theorem logOK_handle (cfg : Config) (fs : FS) (r : Request)
    (hrl : '\n' ∉ r.requestline) (hme : '\n' ∉ r.method) :
    logOK cfg (handleOneRequest cfg fs r) := by
  unfold handleOneRequest
  split
  · exact logOK_sendResponse cfg _ _ 200 (logOK_stInit cfg) hrl
  · split
    · exact logOK_doGET cfg fs r stInit (logOK_stInit cfg) hrl
    · split
      · exact logOK_sendHead cfg fs r stInit (logOK_stInit cfg) hrl
      · refine logOK_sendError cfg _ _ _ 501 _ (logOK_stInit cfg) hrl ?_
        intro hmem
        have e1 : '\n' ∉ str "Unsupported method (" := by decide
        have e2 : ('\n' : Char) ≠ quoteCh := by decide
        have e3 : '\n' ∉ str ")" := by decide
        simp only [Option.getD_some, List.mem_append, List.mem_cons] at hmem
        tauto

theorem msgs_len_sendResponse (cfg : Config) (st : St) (rl : Str) (code : Nat) :
    (sendResponse cfg st rl code).msgs.length = st.msgs.length + 1 := by
  simp [sendResponse, sendHeader, sendResponseOnly, logRequest, logMessage]

theorem msgs_len_sendError (cfg : Config) (st : St) (rl m : Str) (code : Nat)
    (msg? : Option Str) :
    (sendError cfg st rl m code msg?).msgs.length = st.msgs.length + 2 := by
  unfold sendError
  dsimp only
  split
  · split <;>
      simp [sendResponse, sendHeader, sendResponseOnly, logRequest, logMessage,
        endHeaders, endHeadersBase]
  · simp [sendResponse, sendHeader, sendResponseOnly, logRequest, logMessage,
      endHeaders, endHeadersBase]

theorem msgs_len_fileResponse (cfg : Config) (fs : FS) (r : Request) (st : St)
    (p : Str) :
    st.msgs.length + 1 ≤ ((fileResponse cfg fs r st p).2).msgs.length ∧
    ((fileResponse cfg fs r st p).2).msgs.length ≤ st.msgs.length + 2 := by
  unfold fileResponse
  dsimp only
  split
  · rw [msgs_len_sendError]; omega
  · split
    · rw [msgs_len_sendError]
      simp only [stRead]
      omega
    · split
      · simp only [sendResponse, sendHeader, sendResponseOnly, logRequest, logMessage,
          endHeaders, endHeadersBase, stRead, List.length_append, List.length_cons,
          List.length_nil]
        omega
      · simp only [sendResponse, sendHeader, sendResponseOnly, logRequest, logMessage,
          endHeaders, endHeadersBase, stRead, List.length_append, List.length_cons,
          List.length_nil]
        omega

theorem msgs_len_listDirectory (cfg : Config) (fs : FS) (r : Request) (st : St)
    (p : Str) :
    st.msgs.length + 1 ≤ ((listDirectory cfg fs r st p).2).msgs.length ∧
    ((listDirectory cfg fs r st p).2).msgs.length ≤ st.msgs.length + 2 := by
  unfold listDirectory
  dsimp only
  split
  · rw [msgs_len_sendError]
    simp only [stRead]
    omega
  · simp [sendResponse, sendHeader, sendResponseOnly, logRequest, logMessage,
      endHeaders, endHeadersBase, stRead]

theorem msgs_len_sendHead (cfg : Config) (fs : FS) (r : Request) (st : St) :
    st.msgs.length + 1 ≤ ((sendHead cfg fs r st).2).msgs.length ∧
    ((sendHead cfg fs r st).2).msgs.length ≤ st.msgs.length + 2 := by
  unfold sendHead
  dsimp only
  generalize translatePath cfg.directory r.path = P
  split
  · split
    · simp only [sendResponse, sendHeader, sendResponseOnly, logRequest, logMessage,
        endHeaders, endHeadersBase, stRead, List.length_append, List.length_cons,
        List.length_nil]
      omega
    · split
      · have h := msgs_len_fileResponse cfg fs r
          (stRead (stRead st P) (posixJoin P (str "index.html")))
          (posixJoin P (str "index.html"))
        simpa only [stRead] using h
      · split
        · have h := msgs_len_fileResponse cfg fs r
            (stRead (stRead (stRead st P) (posixJoin P (str "index.html")))
              (posixJoin P (str "index.htm")))
            (posixJoin P (str "index.htm"))
          simpa only [stRead] using h
        · have h := msgs_len_listDirectory cfg fs r
            (stRead (stRead (stRead st P) (posixJoin P (str "index.html")))
              (posixJoin P (str "index.htm"))) P
          simpa only [stRead] using h
  · have h := msgs_len_fileResponse cfg fs r (stRead st P) P
    simpa only [stRead] using h

theorem msgs_len_doGET (cfg : Config) (fs : FS) (r : Request) (st : St) :
    st.msgs.length + 1 ≤ (doGET cfg fs r st).msgs.length ∧
    (doGET cfg fs r st).msgs.length ≤ st.msgs.length + 2 := by
  unfold doGET
  rcases hsh : sendHead cfg fs r st with ⟨b?, st'⟩
  have h := msgs_len_sendHead cfg fs r st
  rw [hsh] at h
  cases b? with
  | some b => exact h
  | none => exact h

theorem msgs_len_handle (cfg : Config) (fs : FS) (r : Request) :
    1 ≤ (handleOneRequest cfg fs r).msgs.length ∧
    (handleOneRequest cfg fs r).msgs.length ≤ 2 := by
  unfold handleOneRequest
  split
  · rw [show (doOPTIONS cfg r stInit).msgs.length =
        (sendResponse cfg stInit r.requestline 200).msgs.length from rfl,
      msgs_len_sendResponse]
    simp [stInit]
  · split
    · have h := msgs_len_doGET cfg fs r stInit
      simpa [stInit] using h
    · split
      · have h := msgs_len_sendHead cfg fs r stInit
        simpa [stInit] using h
      · rw [msgs_len_sendError]
        simp [stInit]

/-- C6 as amended: every line the handler writes to standard output has the
form `[YYYY-MM-DD HH:MM:SS] message` with a single trailing newline and is
followed immediately by a flush; a request answered without `send_error`
produces exactly one such line (the access-log line), while an error response
produces two (the error line and the access-log line) — so a handled request
yields one or two lines, not always exactly one. -/
theorem C6_amended_log_lines (cfg : Config) (fs : FS) (r : Request)
    (htm : validTm cfg.now) (hrl : '\n' ∉ r.requestline) (hme : '\n' ∉ r.method) :
    (handleOneRequest cfg fs r).events =
      logShape cfg (handleOneRequest cfg fs r).msgs ∧
    (∀ m ∈ (handleOneRequest cfg fs r).msgs, '\n' ∉ m) ∧
    1 ≤ (handleOneRequest cfg fs r).msgs.length ∧
    (handleOneRequest cfg fs r).msgs.length ≤ 2 ∧
    tsPattern (strftimeYmdHMS cfg.now) := by
  obtain ⟨he, hok⟩ := logOK_handle cfg fs r hrl hme
  obtain ⟨h1, h2⟩ := msgs_len_handle cfg fs r
  exact ⟨he, hok, h1, h2, strftime_tsPattern htm⟩

/-- Witness for the amended C6: the concrete `GET /test-api.html` request. -/
theorem C6_amended_log_lines_witness :
    validTm cfgEx.now ∧ '\n' ∉ reqGetEx.requestline ∧ '\n' ∉ reqGetEx.method ∧
    ((handleOneRequest cfgEx fsEx reqGetEx).events =
      logShape cfgEx (handleOneRequest cfgEx fsEx reqGetEx).msgs ∧
    (∀ m ∈ (handleOneRequest cfgEx fsEx reqGetEx).msgs, '\n' ∉ m) ∧
    1 ≤ (handleOneRequest cfgEx fsEx reqGetEx).msgs.length ∧
    (handleOneRequest cfgEx fsEx reqGetEx).msgs.length ≤ 2 ∧
    tsPattern (strftimeYmdHMS cfgEx.now)) := by
  have hv : validTm cfgEx.now :=
    ⟨by decide, by decide, by decide, by decide, by decide, by decide, by decide⟩
  refine ⟨hv, by decide, by decide, ?_⟩
  exact C6_amended_log_lines cfgEx fsEx reqGetEx hv (by decide) (by decide)

/-- Counterexample to C6 as stated: handling `GET /missing` writes two log
lines to stdout (the `send_error` error line and the access-log line), not
exactly one. -/
theorem C6_counterexample_two_lines_on_error :
    writeCount (handleOneRequest cfgEx fsEx reqGetMissingEx).events = 2 ∧
    writeCount (handleOneRequest cfgEx fsEx reqGetMissingEx).events ≠ 1 := by
  refine ⟨by decide, by decide⟩

end Phoenix
